import Mathlib

/-!
Verification of the Recovery & Conflict Calculator of the triathlon race
scheduler (frontend/src/utils/dateUtils.ts together with the type
definitions in frontend/src/types/index.ts).

Modelling conventions.

* Timestamps are modelled as integers counting milliseconds from the JS
  epoch, in a fixed timezone without daylight-saving shifts, so that every
  civil day spans exactly 86400000 ms.  The JS epoch (1970-01-01) is a
  Thursday, so the JS getDay of a timestamp t is ((t / dayMs) + 4) mod 7
  with Sunday = 0 and Monday = 1.
* A race date field holds a string in YYYY-MM-DD form; the Race invariant
  of the data model guarantees it is a valid calendar date, so it is
  modelled by its civil day number (days from 1970-01-01, possibly
  negative).  date-fns parseISO of such a string yields local midnight of
  that day, i.e. the timestamp dayNumber * dayMs.
* The race distance field is a string at runtime (the TypeScript
  annotation RaceDistance is erased); the RACE_DISTANCES record lookup is
  modelled as an Option-valued function, none standing for the undefined
  lookup result which makes the JS code throw when its fields are read.
  Accordingly the fallible operations return Option: a none result of
  calculateRecoveryPeriod, detectSchedulingConflicts or getCalendarDays
  models the thrown TypeError.
* date-fns helpers (startOfWeek, endOfWeek, addDays, subDays,
  eachDayOfInterval, isSameDay, isWithinInterval, isSameMonth) are
  reproduced from their date-fns v2 implementations at this millisecond
  granularity; the source always calls the week helpers with
  weekStartsOn = 1, which is inlined here.
-/

/-- Milliseconds in one civil day (1000 * 60 * 60 * 24). -/
def dayMs : Int := 86400000

/-- Civil day number containing a timestamp (floor division; Int division
by a positive literal is floor division). -/
def floorDay (t : Int) : Int := t / dayMs

/-- JS setHours(0,0,0,0): local midnight of the day containing t. -/
def startOfDay (t : Int) : Int := floorDay t * dayMs

/-- JS Date.getDay: 0 = Sunday, ..., 6 = Saturday; the epoch day is a
Thursday (= 4). -/
def getDay (t : Int) : Int := (floorDay t + 4) % 7

/-- date-fns addDays (whole-day shift; no DST in the model). -/
def addDays (t : Int) (n : Int) : Int := t + n * dayMs

/-- date-fns subDays. -/
def subDays (t : Int) (n : Int) : Int := t - n * dayMs

/-- date-fns startOfWeek with weekStartsOn = 1, as called by the source:
go back to the most recent Monday and take the start of that day. -/
def startOfWeek (t : Int) : Int :=
  let day := getDay t
  let diff := (if day < 1 then 7 else 0) + day - 1
  startOfDay (subDays t diff)

/-- date-fns endOfWeek with weekStartsOn = 1: go forward to the next
Sunday and take the last millisecond of that day (setHours(23,59,59,999)). -/
def endOfWeek (t : Int) : Int :=
  let day := getDay t
  let diff := (if day < 1 then -7 else 0) + 6 - (day - 1)
  startOfDay (addDays t diff) + (dayMs - 1)

/-- date-fns eachDayOfInterval: the midnights of all days from the day of
the start timestamp up to every day whose midnight is still at or before
the end timestamp.  (date-fns raises on a reversed interval; the model
returns []; the source never builds a reversed interval.) -/
def eachDayOfInterval (start stop : Int) : List Int :=
  let s := floorDay start
  let n := (floorDay stop - s + 1).toNat
  (List.range n).map (fun k : Nat => (s + (k : Int)) * dayMs)

/-- date-fns isSameDay: same start of day. -/
def isSameDay (a b : Int) : Bool := decide (startOfDay a = startOfDay b)

/-- date-fns isWithinInterval: start <= t and t <= end, both ends
inclusive.  (date-fns raises on a reversed interval; the source only
passes recovery intervals, which are never reversed.) -/
def isWithinInterval (t start stop : Int) : Bool := decide (start ≤ t ∧ t ≤ stop)

/-- Civil-calendar conversion: day number to (year, month, day), month
1-based.  Standard era-based Gregorian conversion; it backs the JS
getFullYear / getMonth calls used by date-fns isSameMonth.  (JS getMonth
is 0-based; only equality of months and reconstruction of the first of
the month are used here, for which the 1-based form is equivalent.) -/
def civilFromDays (z : Int) : Int × Int × Int :=
  let z2 := z + 719468
  let era := z2 / 146097
  let doe := (z2 % 146097).toNat
  let yoe := (doe - doe / 1460 + doe / 36524 - doe / 146096) / 365
  let doy := doe - (365 * yoe + yoe / 4 - yoe / 100)
  let mp := (5 * doy + 2) / 153
  let d := doy - (153 * mp + 2) / 5 + 1
  let m : Int := (mp : Int) + (if mp < 10 then 3 else -9)
  let y : Int := (yoe : Int) + era * 400 + (if m ≤ 2 then 1 else 0)
  (y, m, (d : Int))

/-- Civil-calendar conversion: (year, month, day) to day number, inverse
of civilFromDays; used to write concrete calendar dates. -/
def daysFromCivil (y m d : Int) : Int :=
  let y2 := y - (if m ≤ 2 then 1 else 0)
  let era := y2 / 400
  let yoe := (y2 - era * 400).toNat
  let mp := (if 2 < m then m - 3 else m + 9).toNat
  let doy := (153 * mp + 2) / 5 + d.toNat - 1
  let doe := yoe * 365 + yoe / 4 - yoe / 100 + doy
  era * 146097 + (doe : Int) - 719468

/-- JS Date.getFullYear of a timestamp. -/
def getFullYear (t : Int) : Int := (civilFromDays (floorDay t)).1

/-- JS Date.getMonth of a timestamp (1-based here, see civilFromDays). -/
def getMonth (t : Int) : Int := (civilFromDays (floorDay t)).2.1

/-- date-fns isSameMonth: same year and same month. -/
def isSameMonth (a b : Int) : Bool :=
  decide (getFullYear a = getFullYear b ∧ getMonth a = getMonth b)

/-- date-fns parseISO applied to a YYYY-MM-DD race date string (modelled
by its civil day number): local midnight of that day. -/
def parseISO (dateField : Int) : Int := dateField * dayMs

/-- Recovery intensity labels of RecoveryPeriodInfo (types/index.ts). -/
inductive Intensity
  | light
  | moderate
  | heavy
deriving Repr, DecidableEq

/-- Severity of a SchedulingConflict: the source type is the union
of the two string literals warning and error (types/index.ts). -/
inductive Severity
  | warning
  | error
deriving Repr, DecidableEq

/-- RecoveryPeriod configuration record (types/index.ts). -/
structure RecoveryPeriod where
  min : Nat
  max : Nat
  recommended : Nat
deriving Repr, DecidableEq

/-- The RACE_DISTANCES lookup table (types/index.ts), restricted to the
recovery configuration (label, description, icon and color are
presentation-only strings never read by the functions verified here).
A lookup with an unknown key is undefined in JS, modelled as none. -/
def RACE_DISTANCES (distance : String) : Option RecoveryPeriod :=
  if distance = "sprint" then some ⟨2, 4, 3⟩
  else if distance = "olympic" then some ⟨5, 7, 6⟩
  else if distance = "middle" then some ⟨10, 14, 12⟩
  else if distance = "long" then some ⟨25, 35, 30⟩
  else none

/-- TriathlonRace (types/index.ts), restricted to the fields the verified
functions read: id, title, date (a valid YYYY-MM-DD string, modelled by
its civil day number) and distance (a string at runtime).  The optional
time, location, description and the created_at / updated_at timestamps
are never read by the calculator. -/
structure TriathlonRace where
  id : String
  title : String
  date : Int
  distance : String
deriving Repr, DecidableEq

/-- NewRace (types/index.ts), restricted the same way; the proposed race
of detectSchedulingConflicts may be a NewRace or a TriathlonRace, of
which only the date field is read. -/
structure NewRace where
  title : String
  date : Int
  distance : String
deriving Repr, DecidableEq

/-- RecoveryPeriodInfo (types/index.ts). -/
structure RecoveryPeriodInfo where
  race : TriathlonRace
  startDate : Int
  endDate : Int
  days : Nat
  intensity : Intensity
deriving Repr, DecidableEq

/-- CalendarDay (types/index.ts). -/
structure CalendarDay where
  date : Int
  isCurrentMonth : Bool
  races : List TriathlonRace
  recoveryPeriods : List RecoveryPeriodInfo
  hasConflict : Bool
deriving Repr, DecidableEq

/-- SchedulingConflict (types/index.ts). -/
structure SchedulingConflict where
  proposedRace : NewRace
  conflictingRecovery : List RecoveryPeriodInfo
  severity : Severity
  message : String
deriving Repr, DecidableEq

/-- JS Array.prototype.map with a callback that may throw: the whole map
throws (returns none) as soon as one element does. -/
def mapAll (f : α → Option β) : List α → Option (List β)
  | [] => some []
  | a :: as =>
    match f a, mapAll f as with
    | some b, some bs => some (b :: bs)
    | _, _ => none

/-- calculateRecoveryPeriod (dateUtils.ts).  The RACE_DISTANCES lookup
is undefined for an unknown distance and the subsequent field read
throws, modelled by none. -/
def calculateRecoveryPeriod (race : TriathlonRace) : Option RecoveryPeriodInfo :=
  match RACE_DISTANCES race.distance with
  | none => none
  | some config =>
    let raceDate := parseISO race.date
    let recoveryDays := config.recommended
    let startDate := addDays raceDate 1
    let endDate := addDays raceDate (recoveryDays : Int)
    let intensity :=
      if race.distance = "sprint" then Intensity.light
      else if race.distance = "olympic" then Intensity.moderate
      else Intensity.heavy
    some { race := race, startDate := startDate, endDate := endDate,
           days := recoveryDays, intensity := intensity }

/-- getRecoveryPeriodsForDate (dateUtils.ts). -/
def getRecoveryPeriodsForDate (date : Int) (recoveryPeriods : List RecoveryPeriodInfo) :
    List RecoveryPeriodInfo :=
  recoveryPeriods.filter (fun period => isWithinInterval date period.startDate period.endDate)

/-- detectSchedulingConflicts (dateUtils.ts).  The outer Option models
the exception thrown while mapping calculateRecoveryPeriod over a race
with an unknown distance; the inner Option is the null / conflict result
of the source. -/
def detectSchedulingConflicts (proposedRace : NewRace) (existingRaces : List TriathlonRace) :
    Option (Option SchedulingConflict) :=
  let proposedDate := parseISO proposedRace.date
  match mapAll calculateRecoveryPeriod existingRaces with
  | none => none
  | some recoveryPeriods =>
    let conflictingRecovery := getRecoveryPeriodsForDate proposedDate recoveryPeriods
    if conflictingRecovery.length = 0 then
      some none
    else
      let hasHeavyRecovery := conflictingRecovery.any (fun r => decide (r.intensity = Intensity.heavy))
      let severity := if hasHeavyRecovery then Severity.error else Severity.warning
      let conflictingRaceNames := String.intercalate ", " (conflictingRecovery.map (fun r => r.race.title))
      let message := "This date conflicts with recovery period" ++
        (if 1 < conflictingRecovery.length then "s" else "") ++ " from: " ++ conflictingRaceNames
      some (some { proposedRace := proposedRace, conflictingRecovery := conflictingRecovery,
                   severity := severity, message := message })

/-- getCalendarDays (dateUtils.ts).  The JS amount passed to addDays is
toInteger(42 - (stop - calendarStart) / dayMs); for every reachable
input that operand is nonnegative (stop is at least calendarStart and at
most 42 days past it), so truncation toward zero agrees with the floor
division written here, and the double-precision quotient is far enough
from an integer for rounding not to change the truncation. -/
def getCalendarDays (date : Int) (races : List TriathlonRace) : Option (List CalendarDay) :=
  let start := startOfWeek date
  let stop := endOfWeek date
  let calendarStart := subDays start (if getDay start = 1 then 0 else 7)
  let calendarEnd := addDays stop ((42 * dayMs - (stop - calendarStart)) / dayMs)
  let days := eachDayOfInterval calendarStart calendarEnd
  match mapAll calculateRecoveryPeriod races with
  | none => none
  | some allRecoveryPeriods =>
    some (days.map (fun day =>
      let dayRaces := races.filter (fun race => isSameDay (parseISO race.date) day)
      let dayRecoveryPeriods := getRecoveryPeriodsForDate day allRecoveryPeriods
      let hasConflict := decide (0 < dayRaces.length) && decide (0 < dayRecoveryPeriods.length)
      { date := day, isCurrentMonth := isSameMonth day date, races := dayRaces,
        recoveryPeriods := dayRecoveryPeriods, hasConflict := hasConflict }))

/-- Spec-side definition, for refinement comparison only (it follows the
spec wording, not the source): the Monday on or before the first day of
the month of the anchor timestamp, which section 4.3 of the spec names
as the first cell of the month grid. -/
def spec_monthGridStart (t : Int) : Int :=
  startOfWeek (parseISO (daysFromCivil (getFullYear t) (getMonth t) 1))

/-- Conflict predicate on a single existing race, used to state in which
order the conflicting races appear: the race has a known distance and
the candidate date lies inside its recovery interval. -/
def raceConflictsWith (d : Int) (r : TriathlonRace) : Bool :=
  match calculateRecoveryPeriod r with
  | some period => isWithinInterval d period.startDate period.endDate
  | none => false

/-! ### Helper lemmas -/

lemma calculateRecoveryPeriod_eq_some {r : TriathlonRace} {p : RecoveryPeriodInfo}
    (h : calculateRecoveryPeriod r = some p) :
    ∃ config, RACE_DISTANCES r.distance = some config ∧
      p.race = r ∧
      p.startDate = addDays (parseISO r.date) 1 ∧
      p.endDate = addDays (parseISO r.date) (config.recommended : Int) ∧
      p.days = config.recommended ∧
      p.intensity = (if r.distance = "sprint" then Intensity.light
        else if r.distance = "olympic" then Intensity.moderate else Intensity.heavy) := by
  unfold calculateRecoveryPeriod at h
  cases hcfg : RACE_DISTANCES r.distance with
  | none => rw [hcfg] at h; cases h
  | some config =>
    rw [hcfg] at h
    refine ⟨config, rfl, ?_⟩
    injection h with h
    subst h
    simp

lemma mapAll_mem {α β : Type} {f : α → Option β} :
    ∀ {S : List α} {ps : List β}, mapAll f S = some ps → ∀ p ∈ ps, ∃ a ∈ S, f a = some p := by
  intro S
  induction S with
  | nil =>
    intro ps h p hp
    injection h with h
    subst h
    cases hp
  | cons a as ih =>
    intro ps h p hp
    unfold mapAll at h
    cases ha : f a with
    | none => rw [ha] at h; cases h
    | some b =>
      rw [ha] at h
      cases hm : mapAll f as with
      | none => rw [hm] at h; cases h
      | some bs =>
        rw [hm] at h
        injection h with h
        subst h
        rcases List.mem_cons.mp hp with hp | hp
        · exact ⟨a, List.mem_cons_self a as, by rw [ha, hp]⟩
        · obtain ⟨x, hx, hfx⟩ := ih hm p hp
          exact ⟨x, List.mem_cons_of_mem a hx, hfx⟩

lemma mapAll_calc_filter_map {d : Int} :
    ∀ {S : List TriathlonRace} {ps : List RecoveryPeriodInfo},
      mapAll calculateRecoveryPeriod S = some ps →
      (getRecoveryPeriodsForDate d ps).map (fun p => p.race) = S.filter (raceConflictsWith d) := by
  intro S
  induction S with
  | nil =>
    intro ps h
    injection h with h
    subst h
    rfl
  | cons r rs ih =>
    intro ps h
    unfold mapAll at h
    cases hr : calculateRecoveryPeriod r with
    | none => rw [hr] at h; cases h
    | some p =>
      rw [hr] at h
      cases hm : mapAll calculateRecoveryPeriod rs with
      | none => rw [hm] at h; cases h
      | some qs =>
        rw [hm] at h
        injection h with h
        subst h
        obtain ⟨config, _, hrace, _, _, _, _⟩ := calculateRecoveryPeriod_eq_some hr
        have hpred : raceConflictsWith d r = isWithinInterval d p.startDate p.endDate := by
          unfold raceConflictsWith
          rw [hr]
        have hstep : getRecoveryPeriodsForDate d (p :: qs) =
            if isWithinInterval d p.startDate p.endDate then p :: getRecoveryPeriodsForDate d qs
            else getRecoveryPeriodsForDate d qs := by
          unfold getRecoveryPeriodsForDate
          rw [List.filter_cons]
        rw [hstep, List.filter_cons, hpred]
        cases hw : isWithinInterval d p.startDate p.endDate <;>
          simp [ih hm, hrace]

lemma detectSchedulingConflicts_eq {p : NewRace} {S : List TriathlonRace}
    {ps : List RecoveryPeriodInfo} (h : mapAll calculateRecoveryPeriod S = some ps) :
    detectSchedulingConflicts p S =
      (if (getRecoveryPeriodsForDate (parseISO p.date) ps).length = 0 then some none
       else some (some {
         proposedRace := p,
         conflictingRecovery := getRecoveryPeriodsForDate (parseISO p.date) ps,
         severity := if (getRecoveryPeriodsForDate (parseISO p.date) ps).any
             (fun r => decide (r.intensity = Intensity.heavy)) then Severity.error
           else Severity.warning,
         message := "This date conflicts with recovery period" ++
           (if 1 < (getRecoveryPeriodsForDate (parseISO p.date) ps).length then "s" else "") ++
           " from: " ++ String.intercalate ", "
             ((getRecoveryPeriodsForDate (parseISO p.date) ps).map (fun r => r.race.title)) })) := by
  unfold detectSchedulingConflicts
  rw [h]

lemma startOfWeek_props (t : Int) :
    getDay (startOfWeek t) = 1 ∧
    startOfDay (startOfWeek t) = startOfWeek t ∧
    endOfWeek t = startOfWeek t + 7 * dayMs - 1 ∧
    startOfWeek t ≤ t := by
  simp only [getDay, startOfWeek, endOfWeek, startOfDay, subDays, addDays, floorDay, dayMs]
  split_ifs <;> omega

lemma calendarGrid (t : Int) :
    eachDayOfInterval (subDays (startOfWeek t) (if getDay (startOfWeek t) = 1 then 0 else 7))
      (addDays (endOfWeek t)
        ((42 * dayMs - (endOfWeek t -
          subDays (startOfWeek t) (if getDay (startOfWeek t) = 1 then 0 else 7))) / dayMs)) =
    (List.range 42).map (fun k : Nat => startOfWeek t + (k : Int) * dayMs) := by
  obtain ⟨h1, h2, h3, -⟩ := startOfWeek_props t
  rw [if_pos h1, h3]
  unfold startOfDay at h2
  set S := startOfWeek t with hS
  rw [← h2]
  generalize floorDay S = m
  simp only [eachDayOfInterval, subDays, addDays, floorDay, dayMs]
  have hn : ((m * 86400000 + 7 * 86400000 - 1 +
      (42 * 86400000 - (m * 86400000 + 7 * 86400000 - 1 - (m * 86400000 - 0 * 86400000))) /
        86400000 * 86400000) / 86400000 -
      (m * 86400000 - 0 * 86400000) / 86400000 + 1).toNat = 42 := by omega
  have hm0 : (m * 86400000 - 0 * 86400000) / 86400000 = m := by omega
  rw [hn, hm0]
  refine List.map_congr_left ?_
  intro a _
  ring

lemma getCalendarDays_eq_some {t : Int} {races : List TriathlonRace}
    {ps : List RecoveryPeriodInfo} (h : mapAll calculateRecoveryPeriod races = some ps) :
    getCalendarDays t races = some ((List.range 42).map (fun k : Nat =>
      ({ date := startOfWeek t + (k : Int) * dayMs,
         isCurrentMonth := isSameMonth (startOfWeek t + (k : Int) * dayMs) t,
         races := races.filter
           (fun race => isSameDay (parseISO race.date) (startOfWeek t + (k : Int) * dayMs)),
         recoveryPeriods :=
           getRecoveryPeriodsForDate (startOfWeek t + (k : Int) * dayMs) ps,
         hasConflict := decide (0 < (races.filter
             (fun race => isSameDay (parseISO race.date)
               (startOfWeek t + (k : Int) * dayMs))).length) &&
           decide (0 < (getRecoveryPeriodsForDate
             (startOfWeek t + (k : Int) * dayMs) ps).length) } : CalendarDay))) := by
  simp only [getCalendarDays, h]
  rw [calendarGrid t, List.map_map]
  rfl

/-! ### Claim C5 -/

/-- C5, amended: for every anchor timestamp and every list of races with
known distance categories (those on which getCalendarDays returns a
value), the grid has exactly 42 day cells in strictly increasing date
order, and its first cell is the Monday on or before the anchor date
itself, that is the start of the week of the anchor, not the Monday on
or before the first day of the anchor month. -/
theorem claim5_grid {t : Int} {races : List TriathlonRace} {days : List CalendarDay}
    (h : getCalendarDays t races = some days) :
    days.length = 42 ∧
    days.Pairwise (fun a b => a.date < b.date) ∧
    days.head?.map (fun c => c.date) = some (startOfWeek t) ∧
    getDay (startOfWeek t) = 1 ∧ startOfWeek t ≤ t := by
  have hps : ∃ ps, mapAll calculateRecoveryPeriod races = some ps := by
    cases hm : mapAll calculateRecoveryPeriod races with
    | none => simp [getCalendarDays, hm] at h
    | some ps => exact ⟨ps, rfl⟩
  obtain ⟨ps, hm⟩ := hps
  rw [getCalendarDays_eq_some hm] at h
  injection h with h
  subst h
  refine ⟨by simp, ?_, ?_, (startOfWeek_props t).1, (startOfWeek_props t).2.2.2⟩
  · rw [List.pairwise_map]
    refine (List.pairwise_lt_range 42).imp (fun {a b} hab => ?_)
    show startOfWeek t + (a : Int) * dayMs < startOfWeek t + (b : Int) * dayMs
    have hab2 : (a : Int) < (b : Int) := by exact_mod_cast hab
    exact add_lt_add_left (mul_lt_mul_of_pos_right hab2 (by norm_num [dayMs])) _
  · simp [List.head?_map, List.head?_range]

/-- C5, counterexample to the claim as stated: at anchor 2025-07-15 the
first cell of the grid is 2025-07-14 (the Monday of the week of the
anchor), while the Monday on or before the first day of the anchor
month, which the claim names, is 2025-06-30. -/
theorem claim5_counterexample :
    (getCalendarDays (parseISO (daysFromCivil 2025 7 15)) []).map
        (fun days => days.head?.map (fun c => c.date)) =
      some (some (parseISO (daysFromCivil 2025 7 14))) ∧
    spec_monthGridStart (parseISO (daysFromCivil 2025 7 15)) =
      parseISO (daysFromCivil 2025 6 30) ∧
    parseISO (daysFromCivil 2025 7 14) ≠ parseISO (daysFromCivil 2025 6 30) := by
  refine ⟨by decide, by decide, by decide⟩

/-- Witness for claim5_grid at the anchor 2025-07-01 with no races. -/
theorem claim5_witness :
    ((getCalendarDays (parseISO (daysFromCivil 2025 7 1)) []).getD []).length = 42 ∧
    ((getCalendarDays (parseISO (daysFromCivil 2025 7 1)) []).getD []).Pairwise
      (fun a b => a.date < b.date) ∧
    ((getCalendarDays (parseISO (daysFromCivil 2025 7 1)) []).getD []).head?.map
        (fun c => c.date) =
      some (startOfWeek (parseISO (daysFromCivil 2025 7 1))) ∧
    getDay (startOfWeek (parseISO (daysFromCivil 2025 7 1))) = 1 ∧
    startOfWeek (parseISO (daysFromCivil 2025 7 1)) ≤ parseISO (daysFromCivil 2025 7 1) :=
  @claim5_grid (parseISO (daysFromCivil 2025 7 1)) []
    ((getCalendarDays (parseISO (daysFromCivil 2025 7 1)) []).getD []) (by decide)

/-! ### Concrete data used by witnesses and counterexamples -/

def raceSprint : TriathlonRace :=
  { id := "r1", title := "Spring Sprint", date := daysFromCivil 2025 7 5, distance := "sprint" }

def raceOlympic : TriathlonRace :=
  { id := "r2", title := "City Olympic", date := daysFromCivil 2025 7 2, distance := "olympic" }

def raceMiddle : TriathlonRace :=
  { id := "r3", title := "Lake Middle", date := daysFromCivil 2025 8 24, distance := "middle" }

def raceLong : TriathlonRace :=
  { id := "r4", title := "Iron Long", date := daysFromCivil 2025 7 1, distance := "long" }

def raceUltra : TriathlonRace :=
  { id := "r5", title := "Mystery Ultra", date := daysFromCivil 2025 7 1, distance := "ultra" }

def raceMidSprint : TriathlonRace :=
  { id := "r6", title := "Mid Sprint", date := daysFromCivil 2025 7 15, distance := "sprint" }

def candidateAug30 : NewRace :=
  { title := "New Race", date := daysFromCivil 2025 8 30, distance := "sprint" }

def candidateJul9 : NewRace :=
  { title := "New Race", date := daysFromCivil 2025 7 9, distance := "sprint" }

def candidateJul7 : NewRace :=
  { title := "New Race", date := daysFromCivil 2025 7 7, distance := "sprint" }

/-! ### Claims C1 and C2 -/

/-- C1: when the candidate date falls inside at least one recovery
interval derived from the existing races and some matched interval has
heavy intensity, the verdict severity is error; when at least one
interval matches but none of the matched ones is heavy, the severity is
warning. -/
theorem claim1_severity (p : NewRace) (S : List TriathlonRace) (ps : List RecoveryPeriodInfo)
    (h : mapAll calculateRecoveryPeriod S = some ps) :
    ((∃ q ∈ getRecoveryPeriodsForDate (parseISO p.date) ps, q.intensity = Intensity.heavy) →
      ∃ c, detectSchedulingConflicts p S = some (some c) ∧ c.severity = Severity.error) ∧
    ((getRecoveryPeriodsForDate (parseISO p.date) ps ≠ [] ∧
        ∀ q ∈ getRecoveryPeriodsForDate (parseISO p.date) ps, q.intensity ≠ Intensity.heavy) →
      ∃ c, detectSchedulingConflicts p S = some (some c) ∧ c.severity = Severity.warning) := by
  rw [detectSchedulingConflicts_eq h]
  constructor
  · rintro ⟨q, hq, hheavy⟩
    have hne : getRecoveryPeriodsForDate (parseISO p.date) ps ≠ [] := by
      intro h0
      rw [h0] at hq
      cases hq
    rw [if_neg (fun hl => hne (List.length_eq_zero.mp hl))]
    refine ⟨_, rfl, ?_⟩
    show (if (getRecoveryPeriodsForDate (parseISO p.date) ps).any
        (fun r => decide (r.intensity = Intensity.heavy)) then Severity.error
      else Severity.warning) = Severity.error
    rw [if_pos (List.any_eq_true.mpr ⟨q, hq, decide_eq_true hheavy⟩)]
  · rintro ⟨hne, hall⟩
    rw [if_neg (fun hl => hne (List.length_eq_zero.mp hl))]
    refine ⟨_, rfl, ?_⟩
    show (if (getRecoveryPeriodsForDate (parseISO p.date) ps).any
        (fun r => decide (r.intensity = Intensity.heavy)) then Severity.error
      else Severity.warning) = Severity.warning
    rw [if_neg]
    intro hany
    obtain ⟨q, hq, hdec⟩ := List.any_eq_true.mp hany
    exact hall q hq (of_decide_eq_true hdec)

/-- Witness for claim1_severity: a middle-distance race on 2025-08-24
and a candidate on 2025-08-30 produce an error verdict. -/
theorem claim1_witness :
    ∃ c, detectSchedulingConflicts candidateAug30 [raceMiddle] = some (some c) ∧
      c.severity = Severity.error :=
  (claim1_severity candidateAug30 [raceMiddle]
    ((mapAll calculateRecoveryPeriod [raceMiddle]).getD []) (by decide)).1 (by decide)

/-- C2: the null verdict is returned exactly when the candidate date
falls inside none of the recovery intervals derived from the existing
races. -/
theorem claim2_null_iff (p : NewRace) (S : List TriathlonRace) (ps : List RecoveryPeriodInfo)
    (h : mapAll calculateRecoveryPeriod S = some ps) :
    detectSchedulingConflicts p S = some none ↔
      getRecoveryPeriodsForDate (parseISO p.date) ps = [] := by
  rw [detectSchedulingConflicts_eq h]
  constructor
  · intro hr
    by_cases hc : (getRecoveryPeriodsForDate (parseISO p.date) ps).length = 0
    · exact List.length_eq_zero.mp hc
    · rw [if_neg hc] at hr
      simp at hr
  · intro he
    rw [if_pos (by rw [he]; rfl)]

/-- Witness for claim2_null_iff: a candidate on 2025-07-09 against a
sprint race on 2025-07-05 (recovery 2025-07-06 to 2025-07-08) yields the
null verdict. -/
theorem claim2_witness :
    detectSchedulingConflicts candidateJul9 [raceSprint] = some none :=
  (claim2_null_iff candidateJul9 [raceSprint]
    ((mapAll calculateRecoveryPeriod [raceSprint]).getD []) (by decide)).mpr (by decide)

/-! ### Claims C3 and C4 -/

/-- C3: for a race with one of the four known distance categories the
recovery interval starts one day after the race date and ends
recommendedDays(distance) days after it, with recommendedDays 3, 6, 12
and 30 for sprint, olympic, middle and long, and intensity light for
sprint, moderate for olympic and heavy for middle or long. -/
theorem claim3_recovery (r : TriathlonRace)
    (h : r.distance = "sprint" ∨ r.distance = "olympic" ∨
      r.distance = "middle" ∨ r.distance = "long") :
    ∃ info, calculateRecoveryPeriod r = some info ∧
      info.startDate = addDays (parseISO r.date) 1 ∧
      info.endDate = addDays (parseISO r.date)
        (if r.distance = "sprint" then 3 else if r.distance = "olympic" then 6
         else if r.distance = "middle" then 12 else 30) ∧
      info.intensity = (if r.distance = "sprint" then Intensity.light
        else if r.distance = "olympic" then Intensity.moderate else Intensity.heavy) := by
  have hstep : ∀ cfg : RecoveryPeriod, RACE_DISTANCES r.distance = some cfg →
      calculateRecoveryPeriod r = some
        ⟨r, addDays (parseISO r.date) 1, addDays (parseISO r.date) (cfg.recommended : Int),
         cfg.recommended,
         if r.distance = "sprint" then Intensity.light
         else if r.distance = "olympic" then Intensity.moderate else Intensity.heavy⟩ := by
    intro cfg hcfg
    unfold calculateRecoveryPeriod
    rw [hcfg]
  rcases h with h | h | h | h
  · have hcfg : RACE_DISTANCES r.distance = some ⟨2, 4, 3⟩ := by rw [h]; rfl
    exact ⟨_, hstep _ hcfg, rfl, by rw [h]; simp, rfl⟩
  · have hcfg : RACE_DISTANCES r.distance = some ⟨5, 7, 6⟩ := by rw [h]; rfl
    exact ⟨_, hstep _ hcfg, rfl, by rw [h]; simp, rfl⟩
  · have hcfg : RACE_DISTANCES r.distance = some ⟨10, 14, 12⟩ := by rw [h]; rfl
    exact ⟨_, hstep _ hcfg, rfl, by rw [h]; simp, rfl⟩
  · have hcfg : RACE_DISTANCES r.distance = some ⟨25, 35, 30⟩ := by rw [h]; rfl
    exact ⟨_, hstep _ hcfg, rfl, by rw [h]; simp, rfl⟩

/-- Witness for claim3_recovery: the sprint race dated 2025-07-05. -/
theorem claim3_witness :
    ∃ info, calculateRecoveryPeriod raceSprint = some info ∧
      info.startDate = addDays (parseISO raceSprint.date) 1 ∧
      info.endDate = addDays (parseISO raceSprint.date)
        (if raceSprint.distance = "sprint" then 3 else if raceSprint.distance = "olympic" then 6
         else if raceSprint.distance = "middle" then 12 else 30) ∧
      info.intensity = (if raceSprint.distance = "sprint" then Intensity.light
        else if raceSprint.distance = "olympic" then Intensity.moderate
        else Intensity.heavy) :=
  claim3_recovery raceSprint (Or.inl rfl)

/-- C4: the containment test used by conflict detection is inclusive at
both ends, so a recovery period is collected for a date exactly when the
date lies between its startDate and its endDate inclusively; and in the
concrete scenario of a sprint race on 2025-07-05, a candidate dated
2025-07-09, one day past the interval end 2025-07-08, yields no
conflict. -/
theorem claim4_inclusive (d : Int) (ps : List RecoveryPeriodInfo) (q : RecoveryPeriodInfo) :
    (q ∈ getRecoveryPeriodsForDate d ps ↔ q ∈ ps ∧ q.startDate ≤ d ∧ d ≤ q.endDate) ∧
    detectSchedulingConflicts candidateJul9 [raceSprint] = some none := by
  constructor
  · unfold getRecoveryPeriodsForDate isWithinInterval
    rw [List.mem_filter]
    simp [and_assoc]
  · decide

/-! ### Claim C6 -/

lemma getCalendarDays_cell {t : Int} {races : List TriathlonRace} {days : List CalendarDay}
    (h : getCalendarDays t races = some days) {cell : CalendarDay} (hc : cell ∈ days) :
    ∃ ps, mapAll calculateRecoveryPeriod races = some ps ∧ ∃ m : Int,
      cell.date = m * dayMs ∧
      cell.races = races.filter (fun race => isSameDay (parseISO race.date) cell.date) ∧
      cell.recoveryPeriods = getRecoveryPeriodsForDate cell.date ps ∧
      cell.hasConflict = (decide (0 < cell.races.length) &&
        decide (0 < cell.recoveryPeriods.length)) := by
  have hps : ∃ ps, mapAll calculateRecoveryPeriod races = some ps := by
    cases hm : mapAll calculateRecoveryPeriod races with
    | none => simp [getCalendarDays, hm] at h
    | some ps => exact ⟨ps, rfl⟩
  obtain ⟨ps, hm⟩ := hps
  rw [getCalendarDays_eq_some hm] at h
  injection h with h
  subst h
  obtain ⟨k, hk, hcell⟩ := List.mem_map.mp hc
  subst hcell
  have h2 := (startOfWeek_props t).2.1
  unfold startOfDay at h2
  refine ⟨ps, hm, floorDay (startOfWeek t) + (k : Int), ?_, rfl, rfl, rfl⟩
  show startOfWeek t + (k : Int) * dayMs = (floorDay (startOfWeek t) + (k : Int)) * dayMs
  rw [add_mul, h2]

/-- C6: a day cell has hasConflict = true exactly when the day carries at
least one race and at least one overlapping recovery interval that
belongs to a race different from every race scheduled on that day.  The
source only tests that both lists are nonempty; the two conditions agree
because every recovery interval overlapping a day belongs to a race
dated strictly before that day. -/
theorem claim6_hasConflict {t : Int} {races : List TriathlonRace} {days : List CalendarDay}
    (h : getCalendarDays t races = some days) {cell : CalendarDay} (hc : cell ∈ days) :
    cell.hasConflict = true ↔
      (cell.races ≠ [] ∧ ∃ p ∈ cell.recoveryPeriods, ∀ r ∈ cell.races, p.race ≠ r) := by
  obtain ⟨ps, hm, m, hdate, hraces, hrec, hflag⟩ := getCalendarDays_cell h hc
  have hdiff : ∀ p ∈ cell.recoveryPeriods, ∀ r ∈ cell.races, p.race ≠ r := by
    intro p hp r hr
    rw [hrec] at hp
    unfold getRecoveryPeriodsForDate at hp
    rw [List.mem_filter] at hp
    obtain ⟨hpps, hwithin⟩ := hp
    unfold isWithinInterval at hwithin
    rw [decide_eq_true_eq] at hwithin
    obtain ⟨a, -, ha⟩ := mapAll_mem hm p hpps
    obtain ⟨cfg, -, hprace, hpstart, -, -, -⟩ := calculateRecoveryPeriod_eq_some ha
    rw [hraces] at hr
    rw [List.mem_filter] at hr
    obtain ⟨-, hsame⟩ := hr
    unfold isSameDay at hsame
    rw [decide_eq_true_eq] at hsame
    intro heq
    have had : a.date = r.date := by rw [← hprace, heq]
    have h1 := hwithin.1
    rw [hpstart, had] at h1
    rw [hdate] at h1 hsame
    unfold addDays parseISO dayMs at h1
    unfold startOfDay parseISO floorDay dayMs at hsame
    omega
  rw [hflag]
  constructor
  · intro hb
    rw [Bool.and_eq_true, decide_eq_true_eq, decide_eq_true_eq] at hb
    obtain ⟨h1, h2⟩ := hb
    obtain ⟨p, hp⟩ := List.exists_mem_of_ne_nil _ (List.length_pos.mp h2)
    exact ⟨List.length_pos.mp h1, p, hp, hdiff p hp⟩
  · rintro ⟨h1, p, hp, -⟩
    rw [Bool.and_eq_true, decide_eq_true_eq, decide_eq_true_eq]
    exact ⟨List.length_pos.mpr h1, List.length_pos_of_mem hp⟩

/-- Witness for claim6_hasConflict: with a long race on 2025-07-01 and a
sprint race on 2025-07-15, the cell of 2025-07-15 (index 15 of the July
2025 grid) has a race and an overlapping recovery interval from the
other race, so its hasConflict flag is true. -/
theorem claim6_witness :
    (((getCalendarDays (parseISO (daysFromCivil 2025 7 1))
        [raceLong, raceMidSprint]).getD []).getD 15 ⟨0, false, [], [], false⟩).hasConflict =
      true :=
  (@claim6_hasConflict (parseISO (daysFromCivil 2025 7 1)) [raceLong, raceMidSprint]
    ((getCalendarDays (parseISO (daysFromCivil 2025 7 1)) [raceLong, raceMidSprint]).getD [])
    (by decide)
    (((getCalendarDays (parseISO (daysFromCivil 2025 7 1))
      [raceLong, raceMidSprint]).getD []).getD 15 ⟨0, false, [], [], false⟩)
    (by decide)).mpr (by decide)

/-! ### Claims C7 to C10 -/

/-- C7: every verdict message is the fixed prefix followed by the titles
of exactly the conflicting races, comma separated, in the order in which
those races appear in the existingRaces input list. -/
theorem claim7_message (p : NewRace) (S : List TriathlonRace) (ps : List RecoveryPeriodInfo)
    (h : mapAll calculateRecoveryPeriod S = some ps) (c : SchedulingConflict)
    (hc : detectSchedulingConflicts p S = some (some c)) :
    c.message = "This date conflicts with recovery period" ++
      (if 1 < (S.filter (raceConflictsWith (parseISO p.date))).length then "s" else "") ++
      " from: " ++ String.intercalate ", "
        ((S.filter (raceConflictsWith (parseISO p.date))).map (fun r => r.title)) := by
  rw [detectSchedulingConflicts_eq h] at hc
  by_cases h0 : (getRecoveryPeriodsForDate (parseISO p.date) ps).length = 0
  · rw [if_pos h0] at hc
    simp at hc
  · rw [if_neg h0] at hc
    injection hc with hc
    injection hc with hc
    subst hc
    have hmap := @mapAll_calc_filter_map (parseISO p.date) S ps h
    have hlen : (getRecoveryPeriodsForDate (parseISO p.date) ps).length =
        (S.filter (raceConflictsWith (parseISO p.date))).length := by
      rw [← hmap, List.length_map]
    have htitles : (getRecoveryPeriodsForDate (parseISO p.date) ps).map
          (fun r => r.race.title) =
        (S.filter (raceConflictsWith (parseISO p.date))).map (fun r => r.title) := by
      rw [← hmap, List.map_map]
      rfl
    show "This date conflicts with recovery period" ++
        (if 1 < (getRecoveryPeriodsForDate (parseISO p.date) ps).length then "s" else "") ++
        " from: " ++ String.intercalate ", "
          ((getRecoveryPeriodsForDate (parseISO p.date) ps).map (fun r => r.race.title)) = _
    rw [hlen, htitles]

/-- SchedulingConflict returned for the candidate 2025-07-07 against the
sprint race of 2025-07-05 and the olympic race of 2025-07-02, both of
whose recovery windows contain the candidate date. -/
def conflictTwo : SchedulingConflict :=
  ((detectSchedulingConflicts candidateJul7 [raceSprint, raceOlympic]).getD none).getD
    ⟨candidateJul7, [], Severity.warning, ""⟩

/-- Witness for claim7_message: two conflicting races produce the plural
message with titles in input order. -/
theorem claim7_witness :
    conflictTwo.message =
      "This date conflicts with recovery periods from: Spring Sprint, City Olympic" :=
  (claim7_message candidateJul7 [raceSprint, raceOlympic]
    ((mapAll calculateRecoveryPeriod [raceSprint, raceOlympic]).getD []) (by decide)
    conflictTwo (by decide)).trans (by decide)

/-- C8: a race whose distance is not one of the four known categories
makes the recovery derivation fail immediately (none, modelling the
thrown error) rather than silently defaulting to some category. -/
theorem claim8_unknown (r : TriathlonRace)
    (h : r.distance ≠ "sprint" ∧ r.distance ≠ "olympic" ∧
      r.distance ≠ "middle" ∧ r.distance ≠ "long") :
    calculateRecoveryPeriod r = none := by
  unfold calculateRecoveryPeriod
  have hnone : RACE_DISTANCES r.distance = none := by
    unfold RACE_DISTANCES
    rw [if_neg h.1, if_neg h.2.1, if_neg h.2.2.1, if_neg h.2.2.2]
  rw [hnone]

/-- Witness for claim8_unknown: the distance string ultra is unknown. -/
theorem claim8_witness : calculateRecoveryPeriod raceUltra = none :=
  claim8_unknown raceUltra (by decide)

/-- C9: the recovery interval of a race starts strictly after the race
date, so it never contains that date; consequently a verdict never lists
a race whose date equals the candidate date as a conflicting recovery
source. -/
theorem claim9_no_self (r : TriathlonRace) (info : RecoveryPeriodInfo)
    (hr : calculateRecoveryPeriod r = some info)
    (p : NewRace) (S : List TriathlonRace) (c : SchedulingConflict)
    (hc : detectSchedulingConflicts p S = some (some c)) :
    parseISO r.date < info.startDate ∧
    ∀ q ∈ c.conflictingRecovery, q.race.date ≠ p.date := by
  constructor
  · obtain ⟨cfg, -, -, hstart, -, -⟩ := calculateRecoveryPeriod_eq_some hr
    rw [hstart]
    unfold addDays parseISO dayMs
    omega
  · intro q hq
    cases hm : mapAll calculateRecoveryPeriod S with
    | none => simp [detectSchedulingConflicts, hm] at hc
    | some ps =>
      rw [detectSchedulingConflicts_eq hm] at hc
      by_cases h0 : (getRecoveryPeriodsForDate (parseISO p.date) ps).length = 0
      · rw [if_pos h0] at hc
        simp at hc
      · rw [if_neg h0] at hc
        injection hc with hc
        injection hc with hc
        subst hc
        have hq2 : q ∈ getRecoveryPeriodsForDate (parseISO p.date) ps := hq
        unfold getRecoveryPeriodsForDate at hq2
        rw [List.mem_filter] at hq2
        obtain ⟨hqps, hwithin⟩ := hq2
        unfold isWithinInterval at hwithin
        rw [decide_eq_true_eq] at hwithin
        obtain ⟨a, -, ha⟩ := mapAll_mem hm q hqps
        obtain ⟨cfg, -, hrace, hstart, -, -⟩ := calculateRecoveryPeriod_eq_some ha
        intro heq
        have had : a.date = p.date := by rw [← heq, hrace]
        have h1 := hwithin.1
        rw [hstart, had] at h1
        unfold addDays parseISO dayMs at h1
        omega

/-- SchedulingConflict returned for the candidate 2025-07-07 against the
sprint race of 2025-07-05 alone. -/
def conflictOne : SchedulingConflict :=
  ((detectSchedulingConflicts candidateJul7 [raceSprint]).getD none).getD
    ⟨candidateJul7, [], Severity.warning, ""⟩

/-- RecoveryPeriodInfo derived from the sprint race of 2025-07-05. -/
def infoSprint : RecoveryPeriodInfo :=
  (calculateRecoveryPeriod raceSprint).getD ⟨raceSprint, 0, 0, 0, Intensity.light⟩

/-- Witness for claim9_no_self. -/
theorem claim9_witness :
    parseISO raceSprint.date < infoSprint.startDate ∧
    ∀ q ∈ conflictOne.conflictingRecovery, q.race.date ≠ candidateJul7.date :=
  claim9_no_self raceSprint infoSprint (by decide) candidateJul7 [raceSprint] conflictOne
    (by decide)

/-- C10: every non-null verdict carries a nonempty conflictingRecovery
list and a severity that is warning or error; absence of conflict is
signalled only by the null return. -/
theorem claim10_invariant (p : NewRace) (S : List TriathlonRace) (c : SchedulingConflict)
    (hc : detectSchedulingConflicts p S = some (some c)) :
    c.conflictingRecovery ≠ [] ∧
    (c.severity = Severity.warning ∨ c.severity = Severity.error) := by
  cases hm : mapAll calculateRecoveryPeriod S with
  | none => simp [detectSchedulingConflicts, hm] at hc
  | some ps =>
    rw [detectSchedulingConflicts_eq hm] at hc
    by_cases h0 : (getRecoveryPeriodsForDate (parseISO p.date) ps).length = 0
    · rw [if_pos h0] at hc
      simp at hc
    · rw [if_neg h0] at hc
      injection hc with hc
      injection hc with hc
      subst hc
      refine ⟨fun h0e => h0 (List.length_eq_zero.mpr h0e), ?_⟩
      by_cases hb : (getRecoveryPeriodsForDate (parseISO p.date) ps).any
          (fun r => decide (r.intensity = Intensity.heavy)) = true
      · right
        show (if (getRecoveryPeriodsForDate (parseISO p.date) ps).any
            (fun r => decide (r.intensity = Intensity.heavy)) then Severity.error
          else Severity.warning) = Severity.error
        rw [if_pos hb]
      · left
        show (if (getRecoveryPeriodsForDate (parseISO p.date) ps).any
            (fun r => decide (r.intensity = Intensity.heavy)) then Severity.error
          else Severity.warning) = Severity.warning
        rw [if_neg hb]

/-- SchedulingConflict returned for the candidate 2025-08-30 against the
middle-distance race of 2025-08-24. -/
def conflictTen : SchedulingConflict :=
  ((detectSchedulingConflicts candidateAug30 [raceMiddle]).getD none).getD
    ⟨candidateAug30, [], Severity.warning, ""⟩

/-- Witness for claim10_invariant. -/
theorem claim10_witness :
    conflictTen.conflictingRecovery ≠ [] ∧
    (conflictTen.severity = Severity.warning ∨ conflictTen.severity = Severity.error) :=
  claim10_invariant candidateAug30 [raceMiddle] conflictTen (by decide)
